import Mathlib

/-!
Verification of the statistical-arbitrage engine
(`strategy_logic/stat_arb.py`, `backtester.py`).

Numeric series are embedded as lists of rationals (exact arithmetic in
place of IEEE floats); stateful code (the strategy cache, the backtest
portfolios) is embedded with explicit state passing.  Real-valued
quantities that involve transcendental functions (z-scores, half-lives)
are exposed through rational cores (`zDev`, `zVar`, the OLS slope) plus
real-valued wrappers using `Real.sqrt` / `Real.log`.
-/

/-! ## Rational list statistics (pandas / statsmodels semantics) -/

/-- Sum of a list of rationals. -/
def sumQ (l : List ℚ) : ℚ := l.foldr (· + ·) 0

/-- Arithmetic mean (`Series.mean`). Empty list gives 0 (division by zero). -/
def meanQ (l : List ℚ) : ℚ := sumQ l / (l.length : ℚ)

/-- Sample variance with `ddof = 1` (pandas `Series.std` squared). -/
def sampleVar (l : List ℚ) : ℚ :=
  sumQ (l.map (fun v => (v - meanQ l) ^ 2)) / ((l.length : ℚ) - 1)

/-- OLS slope of `y` on `x` with intercept
(`sm.OLS(y, sm.add_constant(x)).fit().params.iloc[1]`):
`Σ(x-x̄)(y-ȳ) / Σ(x-x̄)²`. -/
def olsSlope (x y : List ℚ) : ℚ :=
  sumQ (List.zipWith (fun a b => (a - meanQ x) * (b - meanQ y)) x y) /
    sumQ (x.map (fun a => (a - meanQ x) ^ 2))

/-- OLS intercept of `y` on `x` with intercept term. -/
def olsIntercept (x y : List ℚ) : ℚ := meanQ y - olsSlope x y * meanQ x

/-- Last `n` elements of a list (`DataFrame.tail(n)`). -/
def lastN (n : ℕ) (l : List α) : List α := l.drop (l.length - n)

/-- Python `int()` applied to a rational: truncation toward zero. -/
def pyInt (q : ℚ) : ℤ := if 0 ≤ q then ⌊q⌋ else ⌈q⌉

/-! ## Strategy configuration constants (`stat_arb.py`) -/

def ROLLING_WINDOW : ℕ := 60
def CORRELATION_THRESHOLD : ℚ := 9/10
def ADF_P_VALUE_THRESHOLD : ℚ := 1/100
def MIN_HALF_LIFE : ℚ := 5
def MAX_HALF_LIFE : ℚ := 50
def Z_SCORE_ENTRY : ℚ := 5/2
def Z_SCORE_STOP_LOSS : ℚ := 3
def Z_SCORE_EXIT : ℚ := 0

/-! ## Exact z-score comparisons

The engine compares the float `z = dev / std` with thresholds.  In the
exact embedding `z = dev / √var` is irrational, so each comparison is
carried out on the rational pair `(dev, var)`; the bridging lemmas below
show the boolean tests agree with the real-number comparisons. -/

/-- Test `c ≤ dev / √var`, decided on rationals (valid for `0 < var`). -/
def zGe (dev var c : ℚ) : Bool :=
  if 0 ≤ c then decide (0 ≤ dev) && decide (c ^ 2 * var ≤ dev ^ 2)
  else decide (0 ≤ dev) || decide (dev ^ 2 ≤ c ^ 2 * var)

/-- Test `dev / √var ≤ c`, decided on rationals. -/
def zLe (dev var c : ℚ) : Bool := zGe (-dev) var (-c)

/-- Test `c < dev / √var`, decided on rationals. -/
def zGt (dev var c : ℚ) : Bool := !zLe dev var c

/-- Test `dev / √var < c`, decided on rationals. -/
def zLt (dev var c : ℚ) : Bool := !zGe dev var c

/-- Test `|dev / √var| ≤ c`, decided on rationals. -/
def zAbsLe (dev var c : ℚ) : Bool := zLe dev var c && zGe dev var (-c)

theorem zGe_iff (dev var c : ℚ) (hv : 0 < var) :
    zGe dev var c = true ↔ (c : ℝ) ≤ (dev : ℝ) / Real.sqrt (var : ℝ) := by
  have hs : (0 : ℝ) < Real.sqrt (var : ℝ) := Real.sqrt_pos.mpr (by exact_mod_cast hv)
  have hsq : Real.sqrt (var : ℝ) ^ 2 = (var : ℝ) := Real.sq_sqrt (by positivity)
  rw [le_div_iff hs]
  unfold zGe
  split
  · rename_i hc
    simp only [Bool.and_eq_true, decide_eq_true_eq]
    constructor
    · rintro ⟨h1, h2⟩
      have h1' : (0 : ℝ) ≤ (dev : ℝ) := by exact_mod_cast h1
      have h2' : ((c : ℝ)) ^ 2 * (var : ℝ) ≤ (dev : ℝ) ^ 2 := by exact_mod_cast h2
      have hcs : (0 : ℝ) ≤ (c : ℝ) * Real.sqrt (var : ℝ) := by
        have : (0 : ℝ) ≤ (c : ℝ) := by exact_mod_cast hc
        positivity
      nlinarith [hsq, hs.le]
    · intro h
      have hcs : (0 : ℝ) ≤ (c : ℝ) * Real.sqrt (var : ℝ) := by
        have : (0 : ℝ) ≤ (c : ℝ) := by exact_mod_cast hc
        positivity
      have h1' : (0 : ℝ) ≤ (dev : ℝ) := le_trans hcs h
      refine ⟨by exact_mod_cast h1', ?_⟩
      have h2' : ((c : ℝ)) ^ 2 * (var : ℝ) ≤ (dev : ℝ) ^ 2 := by nlinarith [hsq]
      exact_mod_cast h2'
  · rename_i hc
    have hc' : (c : ℝ) < 0 := by
      have : ¬ (0 : ℚ) ≤ c := hc
      have : c < 0 := lt_of_not_ge this
      exact_mod_cast this
    simp only [Bool.or_eq_true, decide_eq_true_eq]
    constructor
    · rintro (h1 | h2)
      · have h1' : (0 : ℝ) ≤ (dev : ℝ) := by exact_mod_cast h1
        nlinarith [hs]
      · have h2' : (dev : ℝ) ^ 2 ≤ ((c : ℝ)) ^ 2 * (var : ℝ) := by exact_mod_cast h2
        by_cases hd : (0 : ℝ) ≤ (dev : ℝ)
        · nlinarith [hs]
        · have hd' : (dev : ℝ) < 0 := lt_of_not_ge hd
          have hkey : -(dev : ℝ) ≤ -((c : ℝ) * Real.sqrt (var : ℝ)) := by
            refine le_of_pow_le_pow_left (two_ne_zero) ?_ ?_
            · nlinarith [hs]
            · have : (-((c : ℝ) * Real.sqrt (var : ℝ))) ^ 2 = (c : ℝ) ^ 2 * (var : ℝ) := by
                rw [neg_pow]
                ring_nf
                nlinarith [hsq]
              nlinarith [hsq]
          linarith
    · intro h
      by_cases h1 : (0 : ℚ) ≤ dev
      · exact Or.inl h1
      · right
        have h1' : (dev : ℝ) < 0 := by
          have : dev < 0 := lt_of_not_ge h1
          exact_mod_cast this
        have h2' : (dev : ℝ) ^ 2 ≤ ((c : ℝ)) ^ 2 * (var : ℝ) := by nlinarith [hsq, hs]
        exact_mod_cast h2'

theorem zLe_iff (dev var c : ℚ) (hv : 0 < var) :
    zLe dev var c = true ↔ (dev : ℝ) / Real.sqrt (var : ℝ) ≤ (c : ℝ) := by
  unfold zLe
  rw [zGe_iff (-dev) var (-c) hv]
  push_cast
  rw [neg_div]
  constructor <;> intro h <;> linarith

theorem zGt_iff (dev var c : ℚ) (hv : 0 < var) :
    zGt dev var c = true ↔ (c : ℝ) < (dev : ℝ) / Real.sqrt (var : ℝ) := by
  unfold zGt
  rw [Bool.not_eq_true', ← Bool.not_eq_true (zLe dev var c)]
  rw [not_iff_comm, zLe_iff dev var c hv, not_lt]

theorem zLt_iff (dev var c : ℚ) (hv : 0 < var) :
    zLt dev var c = true ↔ (dev : ℝ) / Real.sqrt (var : ℝ) < (c : ℝ) := by
  unfold zLt
  rw [Bool.not_eq_true', ← Bool.not_eq_true (zGe dev var c)]
  rw [not_iff_comm, zGe_iff dev var c hv, not_lt]

/-! ## Pair signal engine (`generate_pair_signals`, stat_arb.py lines 104-188)

A pair's aligned log-price histories are two equal-indexed lists of
rationals (`np.log(close)` after the inner join / `dropna`).  The
module-level cache entry `strategy_cache["open_positions"][pair]` is the
explicit `Option OpenPos` input/output of the per-pair step. -/

inductive Direction where
  | LONG
  | SHORT
deriving DecidableEq, Repr

inductive SignalType where
  | ENTER_LONG
  | ENTER_SHORT
  | EXIT_LONG
  | EXIT_SHORT
  | HOLD_LONG
  | HOLD_SHORT
deriving DecidableEq, Repr

inductive Reason where
  | profitTarget
  | statStop
  | timeStop
  | positionOpen
  | zAboveEntry
  | zBelowEntry
deriving DecidableEq, Repr

/-- Entry of `strategy_cache["open_positions"]`: direction plus the
optional `entry_index` (guarded by `'entry_index' in position`). -/
structure OpenPos where
  direction : Direction
  entryIndex : Option ℕ
deriving DecidableEq, Repr

/-- The fields of the emitted `PairSignal` named by the claims
(`trade_plan` / `trade_details` carry no information the claims use).
The float `z_score` is embedded exactly as the pair
`(zDev, zVar) = (s_last − μ, σ²)` with value `zDev / √zVar`. -/
structure PairSignal where
  sigType : SignalType
  reason : Reason
  zDev : ℚ
  zVar : ℚ
  hedge : ℚ
  halfLife : ℚ
deriving DecidableEq, Repr

/-- Real value of the emitted float `z_score`. -/
noncomputable def PairSignal.zscore (s : PairSignal) : ℝ :=
  (s.zDev : ℝ) / Real.sqrt (s.zVar : ℝ)

/-- Signal type `EXIT_LONG` / `EXIT_SHORT` for a direction. -/
def exitType : Direction → SignalType
  | Direction.LONG => SignalType.EXIT_LONG
  | Direction.SHORT => SignalType.EXIT_SHORT

/-- Signal type `HOLD_LONG` / `HOLD_SHORT` for a direction. -/
def holdType : Direction → SignalType
  | Direction.LONG => SignalType.HOLD_LONG
  | Direction.SHORT => SignalType.HOLD_SHORT

/-- Computes `time_stop_candles = int(2.5 * pair_info['half_life'])`. -/
def timeStopCandles (halfLife : ℚ) : ℤ := pyInt (5/2 * halfLife)

/-- Profit-target test (stat_arb.py line 154): LONG exits on
`z ≥ Z_SCORE_EXIT`, SHORT on `z ≤ Z_SCORE_EXIT`. -/
def profitCond (dir : Direction) (dev var : ℚ) : Bool :=
  match dir with
  | Direction.LONG => zGe dev var Z_SCORE_EXIT
  | Direction.SHORT => zLe dev var Z_SCORE_EXIT

/-- Statistical-stop test (line 156): LONG exits on `z ≤ −Z_SCORE_STOP_LOSS`,
SHORT on `z ≥ Z_SCORE_STOP_LOSS`. -/
def stopCond (dir : Direction) (dev var : ℚ) : Bool :=
  match dir with
  | Direction.LONG => zLe dev var (-Z_SCORE_STOP_LOSS)
  | Direction.SHORT => zGe dev var Z_SCORE_STOP_LOSS

/-- Time-stop test (lines 158-162): only when the position stores
`entry_index`; `bars_held = len(s1_df) - entry_index > time_stop_candles`. -/
def timeCond (pos : OpenPos) (s1Len : ℕ) (halfLife : ℚ) : Bool :=
  match pos.entryIndex with
  | none => false
  | some e => decide ((s1Len : ℤ) - (e : ℤ) > timeStopCandles halfLife)

/-! ### Rolling statistics of the engine (stat_arb.py lines 121-133). -/

/-- Rolling window the engine fits on: the last `ROLLING_WINDOW` aligned
rows, current bar included
(`rolling_df.dropna().tail(ROLLING_WINDOW)`). -/
def engRolling (s1 s2 : List ℚ) : List (ℚ × ℚ) := lastN ROLLING_WINDOW (s1.zip s2)

/-- The engine's dynamic hedge ratio: OLS slope of `log p₁` on `log p₂`
over the rolling window (current bar included). -/
def engHedge (s1 s2 : List ℚ) : ℚ :=
  olsSlope ((engRolling s1 s2).map Prod.snd) ((engRolling s1 s2).map Prod.fst)

/-- The engine's spread series `s1 − hedge·s2` (no intercept subtracted). -/
def engSpread (s1 s2 : List ℚ) : List ℚ :=
  (engRolling s1 s2).map (fun r => r.1 - engHedge s1 s2 * r.2)

/-- z-score numerator: `spread.iloc[-1] - spread.mean()`. -/
def engDev (s1 s2 : List ℚ) : ℚ :=
  (engSpread s1 s2).getLastD 0 - meanQ (engSpread s1 s2)

/-- z-score denominator squared: sample variance of the rolling spread
(`spread.std() ** 2`; the code's guard `std == 0` is `var == 0`). -/
def engVarQ (s1 s2 : List ℚ) : ℚ := sampleVar (engSpread s1 s2)

/-- Per-pair body of `generate_pair_signals` (lines 111-186), for one pair
whose aligned log-price histories are `s1`/`s2`.  Returns the emitted
signal (if any) together with the updated cache entry for the pair. -/
def generatePairSignal (s1 s2 : List ℚ) (halfLife : ℚ) (pos : Option OpenPos) :
    Option PairSignal × Option OpenPos :=
  if (engRolling s1 s2).length < ROLLING_WINDOW then (none, pos)
  else if engVarQ s1 s2 = 0 then (none, pos)
  else
    match pos with
    | some p =>
      if profitCond p.direction (engDev s1 s2) (engVarQ s1 s2) then
        (some ⟨exitType p.direction, Reason.profitTarget, engDev s1 s2, engVarQ s1 s2,
          engHedge s1 s2, halfLife⟩, none)
      else if stopCond p.direction (engDev s1 s2) (engVarQ s1 s2) then
        (some ⟨exitType p.direction, Reason.statStop, engDev s1 s2, engVarQ s1 s2,
          engHedge s1 s2, halfLife⟩, none)
      else if timeCond p s1.length halfLife then
        (some ⟨exitType p.direction, Reason.timeStop, engDev s1 s2, engVarQ s1 s2,
          engHedge s1 s2, halfLife⟩, none)
      else
        (some ⟨holdType p.direction, Reason.positionOpen, engDev s1 s2, engVarQ s1 s2,
          engHedge s1 s2, halfLife⟩, pos)
    | none =>
      if zGt (engDev s1 s2) (engVarQ s1 s2) Z_SCORE_ENTRY then
        (some ⟨SignalType.ENTER_SHORT, Reason.zAboveEntry, engDev s1 s2, engVarQ s1 s2,
          engHedge s1 s2, halfLife⟩, some ⟨Direction.SHORT, some s1.length⟩)
      else if zLt (engDev s1 s2) (engVarQ s1 s2) (-Z_SCORE_ENTRY) then
        (some ⟨SignalType.ENTER_LONG, Reason.zBelowEntry, engDev s1 s2, engVarQ s1 s2,
          engHedge s1 s2, halfLife⟩, some ⟨Direction.LONG, some s1.length⟩)
      else (none, pos)

/-- The z-score of the code as a real number:
`(spread.iloc[-1] − mean) / std` over the last `ROLLING_WINDOW` bars. -/
noncomputable def codeZscore (s1 s2 : List ℚ) : ℝ :=
  (engDev s1 s2 : ℝ) / Real.sqrt (engVarQ s1 s2 : ℝ)

/-! ## Concrete data used by counterexamples and witnesses.
Lists are aligned log-price histories (exact rationals). -/

def c1s1 : List ℚ := [-600, 1, 2, 3, 4, 5, 6, 7, 8, 9, 10, 11, 12, 13, 14, 15, 16, 17, 18, 19, 20, 21, 22, 23, 24, 25, 26, 27, 28, 29, 30, 31, 32, 33, 34, 35, 36, 37, 38, 39, 40, 41, 42, 43, 44, 45, 46, 47, 48, 49, 50, 51, 52, 53, 54, 55, 56, 57, 58, 59, 61]
def c1s2 : List ℚ := [0, 1, 2, 3, 4, 5, 6, 7, 8, 9, 10, 11, 12, 13, 14, 15, 16, 17, 18, 19, 20, 21, 22, 23, 24, 25, 26, 27, 28, 29, 30, 31, 32, 33, 34, 35, 36, 37, 38, 39, 40, 41, 42, 43, 44, 45, 46, 47, 48, 49, 50, 51, 52, 53, 54, 55, 56, 57, 58, 59, 60]
def c2s1 : List ℚ := [0, 1, 2, 3, 4, 5, 6, 7, 8, 9, 10, 11, 12, 13, 14, 15, 16, 17, 18, 19, 20, 21, 22, 23, 24, 25, 26, 27, 28, 29, 30, 31, 32, 33, 34, 35, 36, 37, 38, 39, 40, 41, 42, 43, 44, 45, 46, 47, 48, 49, 50, 51, 52, 53, 54, 55, 56, 57, 58, 60]
def c2s2 : List ℚ := [0, 1, 2, 3, 4, 5, 6, 7, 8, 9, 10, 11, 12, 13, 14, 15, 16, 17, 18, 19, 20, 21, 22, 23, 24, 25, 26, 27, 28, 29, 30, 31, 32, 33, 34, 35, 36, 37, 38, 39, 40, 41, 42, 43, 44, 45, 46, 47, 48, 49, 50, 51, 52, 53, 54, 55, 56, 57, 58, 59]
def c7s1 : List ℚ := [0, 0, 0, 0, 0, 0, 0, 0, 0, 0, 0, 0, 0, 0, 0, 0, 0, 0, 0, 0, 0, 0, 0, 0, 0, 0, 0, 0, 0, 0, 0, 0, 0, 0, 0, 0, 0, 0, 0, 0, 0, 0, 0, 0, 0, 0, 0, 0, 0, 0, 0, 0, 0, 0, 0, 0, 0, 0, 0, 1/1000000]
def wFlat : List ℚ := [0, 1, 2, 3, 4, 5, 6, 7, 8, 9, 10, 11, 12, 13, 14, 15, 16, 17, 18, 19, 20, 21, 22, 23, 24, 25, 26, 27, 28, 29, 30, 31, 32, 33, 34, 35, 36, 37, 38, 39, 40, 41, 42, 43, 44, 45, 46, 47, 48, 49, 50, 51, 52, 53, 54, 55, 56, 57, 58, 59]

/-! ## Spec-side z-score (§4.D steps 1-5), for comparison with the code.
These definitions follow the specification's words, not the source. -/

/-- Modelled from the spec: the lookback window is the last
`ROLLING_WINDOW` aligned bars excluding the current bar. -/
def specLookback (s1 s2 : List ℚ) : List (ℚ × ℚ) :=
  lastN ROLLING_WINDOW ((s1.zip s2).dropLast)

/-- Modelled from the spec: hedge slope β fit by OLS on the lookback window. -/
def specBeta (s1 s2 : List ℚ) : ℚ :=
  olsSlope ((specLookback s1 s2).map Prod.snd) ((specLookback s1 s2).map Prod.fst)

/-- Modelled from the spec: hedge intercept α fit on the lookback window. -/
def specAlpha (s1 s2 : List ℚ) : ℚ :=
  olsIntercept ((specLookback s1 s2).map Prod.snd) ((specLookback s1 s2).map Prod.fst)

/-- Modelled from the spec: spread `s_t = log p₁ − α − β·log p₂` on the lookback. -/
def specLookbackSpread (s1 s2 : List ℚ) : List ℚ :=
  (specLookback s1 s2).map (fun r => r.1 - specAlpha s1 s2 - specBeta s1 s2 * r.2)

/-- Modelled from the spec: the held-out current bar's spread. -/
def specCurSpread (s1 s2 : List ℚ) : ℚ :=
  ((s1.zip s2).getLastD (0, 0)).1 - specAlpha s1 s2 -
    specBeta s1 s2 * ((s1.zip s2).getLastD (0, 0)).2

/-- Modelled from the spec: z numerator `s_current − μ(lookback)`. -/
def specDevQ (s1 s2 : List ℚ) : ℚ :=
  specCurSpread s1 s2 - meanQ (specLookbackSpread s1 s2)

/-- Modelled from the spec: `σ²` over the lookback window. -/
def specVarQ (s1 s2 : List ℚ) : ℚ := sampleVar (specLookbackSpread s1 s2)

/-- Modelled from the spec: the z-score `(s_current − μ)/σ` of §4.D step 5. -/
noncomputable def specZscore (s1 s2 : List ℚ) : ℝ :=
  (specDevQ s1 s2 : ℝ) / Real.sqrt (specVarQ s1 s2 : ℝ)

/-! ## Sign lemmas for `dev / √var`. -/

theorem div_sqrt_pos {d v : ℚ} (hd : 0 < d) (hv : 0 < v) :
    0 < (d : ℝ) / Real.sqrt (v : ℝ) :=
  div_pos (by exact_mod_cast hd) (Real.sqrt_pos.mpr (by exact_mod_cast hv))

theorem div_sqrt_neg {d v : ℚ} (hd : d < 0) (hv : 0 < v) :
    (d : ℝ) / Real.sqrt (v : ℝ) < 0 :=
  div_neg_of_neg_of_pos (by exact_mod_cast hd) (Real.sqrt_pos.mpr (by exact_mod_cast hv))

/-! ## Claim C1 -/

/-- C1 as stated is false on the code: with 61 aligned bars supplied and a
signal emitted, the emitted z-score differs from the spec's
`(s_current − μ)/σ` (OLS fit excluding the current bar, spread with
intercept, μ/σ over the lookback): here the code's z-score is positive
while the spec's is negative. -/
theorem c1_counterexample :
    ROLLING_WINDOW + 1 ≤ c1s1.length ∧ c1s1.length = c1s2.length ∧
    (Option.map PairSignal.zscore
      (generatePairSignal c1s1 c1s2 10 (some ⟨Direction.LONG, some 0⟩)).1).isSome = true ∧
    Option.map PairSignal.zscore
        (generatePairSignal c1s1 c1s2 10 (some ⟨Direction.LONG, some 0⟩)).1 ≠
      some (specZscore c1s1 c1s2) := by
  have hdev : engDev c1s1 c1s2 = 1711/1830 := by
    norm_num [engDev, engSpread, engHedge, engRolling, lastN, olsSlope, sampleVar, meanQ,
      sumQ, ROLLING_WINDOW, c1s1, c1s2]
  have hvar : engVarQ c1s1 c1s2 = 29/1830 := by
    norm_num [engVarQ, engSpread, engHedge, engRolling, lastN, olsSlope, sampleVar, meanQ,
      sumQ, ROLLING_WINDOW, c1s1, c1s2]
  have hsdev : specDevQ c1s1 c1s2 = -19 := by
    norm_num [specDevQ, specCurSpread, specLookbackSpread, specAlpha, specBeta, specLookback,
      olsIntercept, lastN, olsSlope, sampleVar, meanQ, sumQ, ROLLING_WINDOW, c1s1, c1s2]
  have hsvar : specVarQ c1s1 c1s2 = 348000/61 := by
    norm_num [specVarQ, specLookbackSpread, specAlpha, specBeta, specLookback,
      olsIntercept, lastN, olsSlope, sampleVar, meanQ, sumQ, ROLLING_WINDOW, c1s1, c1s2]
  have hlen : (engRolling c1s1 c1s2).length = 60 := by decide
  have hp : profitCond Direction.LONG (engDev c1s1 c1s2) (engVarQ c1s1 c1s2) = true := by
    rw [hdev, hvar]
    simp only [profitCond, zGe, Z_SCORE_EXIT]
    norm_num
  have hsig : (generatePairSignal c1s1 c1s2 10 (some ⟨Direction.LONG, some 0⟩)).1 =
      some ⟨SignalType.EXIT_LONG, Reason.profitTarget, engDev c1s1 c1s2, engVarQ c1s1 c1s2,
        engHedge c1s1 c1s2, 10⟩ := by
    rw [generatePairSignal]
    rw [if_neg (by rw [hlen]; simp [ROLLING_WINDOW]), if_neg (by rw [hvar]; norm_num)]
    simp only [hp, if_true, exitType]
  refine ⟨by decide, by decide, ?_, ?_⟩
  · rw [hsig]; rfl
  · rw [hsig]
    intro hcontra
    have heq : PairSignal.zscore ⟨SignalType.EXIT_LONG, Reason.profitTarget, engDev c1s1 c1s2,
        engVarQ c1s1 c1s2, engHedge c1s1 c1s2, 10⟩ = specZscore c1s1 c1s2 := by
      simpa using hcontra
    have hpos : 0 < PairSignal.zscore ⟨SignalType.EXIT_LONG, Reason.profitTarget,
        engDev c1s1 c1s2, engVarQ c1s1 c1s2, engHedge c1s1 c1s2, 10⟩ := by
      simp only [PairSignal.zscore]
      exact div_sqrt_pos (by rw [hdev]; norm_num) (by rw [hvar]; norm_num)
    have hneg : specZscore c1s1 c1s2 < 0 := by
      simp only [specZscore]
      exact div_sqrt_neg (by rw [hsdev]; norm_num) (by rw [hsvar]; norm_num)
    rw [heq] at hpos
    exact absurd hpos (not_lt.mpr hneg.le)

/-- C1 (amended): the emitted z-score equals `(s_current − μ)/σ` where the
hedge ratio β is fit by OLS on the last `ROLLING_WINDOW` aligned bars
INCLUDING the current bar, the spread is `s_t = log p₁,t − β·log p₂,t`
(no intercept subtracted), and μ and σ are the mean and sample standard
deviation of the spread over that same window. -/
theorem c1_amended_thm (s1 s2 : List ℚ) (hl : ℚ) (pos : Option OpenPos)
    (sig : PairSignal) (newPos : Option OpenPos)
    (h : generatePairSignal s1 s2 hl pos = (some sig, newPos)) :
    sig.zscore = codeZscore s1 s2 := by
  unfold generatePairSignal at h
  repeat' split at h
  all_goals
    have hs := congrArg Prod.fst h
  all_goals
    first
      | exact Option.noConfusion hs
      | (injection hs with hs2
         rw [← hs2]
         rfl)

/-- Witness for `c1_amended_thm`: on 60 concrete bars with an open LONG
position the engine emits a profit-target exit whose z-score is the
code formula. -/
theorem c1_amended_w :
    PairSignal.zscore ⟨SignalType.EXIT_LONG, Reason.profitTarget, 1711/1830, 29/1830,
        611/610, 10⟩ = codeZscore c2s1 c2s2 :=
  c1_amended_thm c2s1 c2s2 10 (some ⟨Direction.LONG, some 0⟩)
    ⟨SignalType.EXIT_LONG, Reason.profitTarget, 1711/1830, 29/1830, 611/610, 10⟩ none
    (by
      have hdev : engDev c2s1 c2s2 = 1711/1830 := by
        norm_num [engDev, engSpread, engHedge, engRolling, lastN, olsSlope, sampleVar, meanQ,
          sumQ, ROLLING_WINDOW, c2s1, c2s2]
      have hvar : engVarQ c2s1 c2s2 = 29/1830 := by
        norm_num [engVarQ, engSpread, engHedge, engRolling, lastN, olsSlope, sampleVar, meanQ,
          sumQ, ROLLING_WINDOW, c2s1, c2s2]
      have hhedge : engHedge c2s1 c2s2 = 611/610 := by
        norm_num [engHedge, engRolling, lastN, olsSlope, meanQ, sumQ, ROLLING_WINDOW, c2s1, c2s2]
      have hlen : (engRolling c2s1 c2s2).length = 60 := by decide
      have hp : profitCond Direction.LONG (engDev c2s1 c2s2) (engVarQ c2s1 c2s2) = true := by
        rw [hdev, hvar]
        simp only [profitCond, zGe, Z_SCORE_EXIT]
        norm_num
      rw [generatePairSignal]
      rw [if_neg (by rw [hlen]; simp [ROLLING_WINDOW]), if_neg (by rw [hvar]; norm_num)]
      simp only [hp, if_true, exitType]
      simp only [hdev, hvar, hhedge])

/-! ## Claim C2 -/

/-- Modelled from the spec (§4.D exit priority, claim C2): the reason on a
multi-condition exit bar is PROFIT if `|z| ≤ Z_EXIT`, else STATISTICAL
STOP if z crosses the stop band, else TIME STOP. -/
def specExitReason (dir : Direction) (dev var : ℚ) : Reason :=
  if zAbsLe dev var Z_SCORE_EXIT then Reason.profitTarget
  else if stopCond dir dev var then Reason.statStop
  else Reason.timeStop

/-- C2 as stated is false on the code: on a bar where both the code's
profit-target condition (LONG, `z ≥ Z_EXIT`, here `z > 0`) and the time
stop are satisfied, the engine emits PROFIT TARGET, while the claim's
selector (PROFIT only if `|z| ≤ Z_EXIT`) prescribes TIME STOP. -/
theorem c2_counterexample :
    profitCond Direction.LONG (engDev c2s1 c2s2) (engVarQ c2s1 c2s2) = true ∧
    timeCond ⟨Direction.LONG, some 0⟩ c2s1.length 1 = true ∧
    Option.map PairSignal.reason
        (generatePairSignal c2s1 c2s2 1 (some ⟨Direction.LONG, some 0⟩)).1 =
      some Reason.profitTarget ∧
    specExitReason Direction.LONG (engDev c2s1 c2s2) (engVarQ c2s1 c2s2) = Reason.timeStop ∧
    Reason.profitTarget ≠ Reason.timeStop := by
  have hdev : engDev c2s1 c2s2 = 1711/1830 := by
    norm_num [engDev, engSpread, engHedge, engRolling, lastN, olsSlope, sampleVar, meanQ,
      sumQ, ROLLING_WINDOW, c2s1, c2s2]
  have hvar : engVarQ c2s1 c2s2 = 29/1830 := by
    norm_num [engVarQ, engSpread, engHedge, engRolling, lastN, olsSlope, sampleVar, meanQ,
      sumQ, ROLLING_WINDOW, c2s1, c2s2]
  have hlen : (engRolling c2s1 c2s2).length = 60 := by decide
  have hp : profitCond Direction.LONG (engDev c2s1 c2s2) (engVarQ c2s1 c2s2) = true := by
    rw [hdev, hvar]
    simp only [profitCond, zGe, Z_SCORE_EXIT]
    norm_num
  refine ⟨hp, ?_, ?_, ?_, by simp⟩
  · simp only [timeCond, timeStopCandles, pyInt]
    norm_num [c2s1]
  · rw [generatePairSignal]
    rw [if_neg (by rw [hlen]; simp [ROLLING_WINDOW]), if_neg (by rw [hvar]; norm_num)]
    simp only [hp, if_true, exitType]
    rfl
  · rw [hdev, hvar]
    simp only [specExitReason, zAbsLe, zLe, zGe, stopCond, Z_SCORE_EXIT, Z_SCORE_STOP_LOSS]
    norm_num

/-! ### Positivity of the rolling variance under the engine's guards. -/

theorem sumQ_nonneg {l : List ℚ} (h : ∀ x ∈ l, 0 ≤ x) : 0 ≤ sumQ l := by
  induction l with
  | nil => simp [sumQ]
  | cons a t ih =>
    have ha := h a (by simp)
    have ht : 0 ≤ sumQ t := ih (fun x hx => h x (by simp [hx]))
    simp only [sumQ, List.foldr_cons] at *
    linarith

theorem sampleVar_nonneg {l : List ℚ} (h2 : 2 ≤ l.length) : 0 ≤ sampleVar l := by
  unfold sampleVar
  apply div_nonneg
  · exact sumQ_nonneg (by
      intro x hx
      simp only [List.mem_map] at hx
      obtain ⟨a, _, ha⟩ := hx
      rw [← ha]
      positivity)
  · have : (2 : ℚ) ≤ (l.length : ℚ) := by exact_mod_cast h2
    linarith

theorem engVarQ_pos (s1 s2 : List ℚ)
    (hlen : ¬ (engRolling s1 s2).length < ROLLING_WINDOW)
    (hv : engVarQ s1 s2 ≠ 0) : 0 < engVarQ s1 s2 := by
  have hsp : (engSpread s1 s2).length = (engRolling s1 s2).length := by
    simp [engSpread]
  have h2 : 2 ≤ (engSpread s1 s2).length := by
    rw [hsp]
    simp only [ROLLING_WINDOW, not_lt] at hlen
    omega
  exact lt_of_le_of_ne (sampleVar_nonneg h2) (Ne.symm hv)

/-- C2 (amended): with an open position and the length/σ guards passed, the
engine emits exactly one signal; its reason is the first satisfied of the
code's exit conditions evaluated in the fixed order PROFIT TARGET, then
STATISTICAL STOP, then TIME STOP — where the profit-target condition is
the directional crossing `z ≥ Z_EXIT` (LONG) / `z ≤ Z_EXIT` (SHORT), not
`|z| ≤ Z_EXIT` — and POSITION OPEN (hold) if none is satisfied. -/
theorem c2_amended_thm (s1 s2 : List ℚ) (hl : ℚ) (p : OpenPos)
    (hlen : ¬ (engRolling s1 s2).length < ROLLING_WINDOW)
    (hv : engVarQ s1 s2 ≠ 0) :
    (∃ sig : PairSignal,
      (generatePairSignal s1 s2 hl (some p)).1 = some sig ∧
      sig.reason =
        (if profitCond p.direction (engDev s1 s2) (engVarQ s1 s2) then Reason.profitTarget
         else if stopCond p.direction (engDev s1 s2) (engVarQ s1 s2) then Reason.statStop
         else if timeCond p s1.length hl then Reason.timeStop
         else Reason.positionOpen)) ∧
    (profitCond p.direction (engDev s1 s2) (engVarQ s1 s2) = true ↔
      (p.direction = Direction.LONG ∧ ((Z_SCORE_EXIT : ℚ) : ℝ) ≤ codeZscore s1 s2) ∨
      (p.direction = Direction.SHORT ∧ codeZscore s1 s2 ≤ ((Z_SCORE_EXIT : ℚ) : ℝ))) ∧
    (stopCond p.direction (engDev s1 s2) (engVarQ s1 s2) = true ↔
      (p.direction = Direction.LONG ∧ codeZscore s1 s2 ≤ ((-Z_SCORE_STOP_LOSS : ℚ) : ℝ)) ∨
      (p.direction = Direction.SHORT ∧ ((Z_SCORE_STOP_LOSS : ℚ) : ℝ) ≤ codeZscore s1 s2)) := by
  have hvp : 0 < engVarQ s1 s2 := engVarQ_pos s1 s2 hlen hv
  refine ⟨?_, ?_, ?_⟩
  · by_cases h1 : profitCond p.direction (engDev s1 s2) (engVarQ s1 s2) = true
    · refine ⟨⟨exitType p.direction, Reason.profitTarget, engDev s1 s2, engVarQ s1 s2,
        engHedge s1 s2, hl⟩, ?_, ?_⟩
      · rw [generatePairSignal, if_neg hlen, if_neg hv]
        simp only [h1, if_true]
      · simp [h1]
    · by_cases h2 : stopCond p.direction (engDev s1 s2) (engVarQ s1 s2) = true
      · refine ⟨⟨exitType p.direction, Reason.statStop, engDev s1 s2, engVarQ s1 s2,
          engHedge s1 s2, hl⟩, ?_, ?_⟩
        · rw [generatePairSignal, if_neg hlen, if_neg hv]
          simp only [h1, h2, if_true, Bool.false_eq_true, if_false]
        · simp [h1, h2]
      · by_cases h3 : timeCond p s1.length hl = true
        · refine ⟨⟨exitType p.direction, Reason.timeStop, engDev s1 s2, engVarQ s1 s2,
            engHedge s1 s2, hl⟩, ?_, ?_⟩
          · rw [generatePairSignal, if_neg hlen, if_neg hv]
            simp only [h1, h2, h3, if_true, Bool.false_eq_true, if_false]
          · simp [h1, h2, h3]
        · refine ⟨⟨holdType p.direction, Reason.positionOpen, engDev s1 s2, engVarQ s1 s2,
            engHedge s1 s2, hl⟩, ?_, ?_⟩
          · rw [generatePairSignal, if_neg hlen, if_neg hv]
            simp only [h1, h2, h3, Bool.false_eq_true, if_false]
          · simp [h1, h2, h3]
  · cases hd : p.direction
    · simp only [profitCond]
      rw [zGe_iff _ _ _ hvp]
      simp [codeZscore]
    · simp only [profitCond]
      rw [zLe_iff _ _ _ hvp]
      simp [codeZscore]
  · cases hd : p.direction
    · simp only [stopCond]
      rw [zLe_iff _ _ _ hvp]
      simp only [codeZscore]
      push_cast
      simp
    · simp only [stopCond]
      rw [zGe_iff _ _ _ hvp]
      simp [codeZscore]

/-- Witness for `c2_amended_thm` on concrete 60-bar data with an open LONG
position whose time stop has elapsed: the profit condition holds, so the
emitted reason is PROFIT TARGET. -/
theorem c2_amended_w :
    ¬ (engRolling c2s1 c2s2).length < ROLLING_WINDOW ∧ engVarQ c2s1 c2s2 ≠ 0 ∧
    (∃ sig : PairSignal,
      (generatePairSignal c2s1 c2s2 1 (some ⟨Direction.LONG, some 0⟩)).1 = some sig ∧
      sig.reason =
        (if profitCond Direction.LONG (engDev c2s1 c2s2) (engVarQ c2s1 c2s2) then
           Reason.profitTarget
         else if stopCond Direction.LONG (engDev c2s1 c2s2) (engVarQ c2s1 c2s2) then
           Reason.statStop
         else if timeCond ⟨Direction.LONG, some 0⟩ c2s1.length 1 then Reason.timeStop
         else Reason.positionOpen)) := by
  have hvar : engVarQ c2s1 c2s2 = 29/1830 := by
    norm_num [engVarQ, engSpread, engHedge, engRolling, lastN, olsSlope, sampleVar, meanQ,
      sumQ, ROLLING_WINDOW, c2s1, c2s2]
  have hv : engVarQ c2s1 c2s2 ≠ 0 := by rw [hvar]; norm_num
  have hlen : ¬ (engRolling c2s1 c2s2).length < ROLLING_WINDOW := by decide
  exact ⟨hlen, hv, (c2_amended_thm c2s1 c2s2 1 ⟨Direction.LONG, some 0⟩ hlen hv).1⟩

/-! ## Claim C7 -/

/-- C7 as stated is false on the code: here the rolling spread's standard
deviation is strictly between 0 and 10⁻⁶ (σ ≈ 1.26·10⁻⁷), yet the engine
still emits a signal — the code's guard (stat_arb.py line 131) skips the
pair only on `std == 0`, not on `std < ε`. -/
theorem c7_counterexample :
    0 < engVarQ c7s1 c2s2 ∧
    Real.sqrt ((engVarQ c7s1 c2s2 : ℚ) : ℝ) < 1/1000000 ∧
    (generatePairSignal c7s1 c2s2 10 (some ⟨Direction.LONG, some 0⟩)).1.isSome = true := by
  have hdev : engDev c7s1 c2s2 = 1711/1830000000 := by
    norm_num [engDev, engSpread, engHedge, engRolling, lastN, olsSlope, sampleVar, meanQ,
      sumQ, ROLLING_WINDOW, c7s1, c2s2]
  have hvar : engVarQ c7s1 c2s2 = 29/1830000000000000 := by
    norm_num [engVarQ, engSpread, engHedge, engRolling, lastN, olsSlope, sampleVar, meanQ,
      sumQ, ROLLING_WINDOW, c7s1, c2s2]
  have hlen : (engRolling c7s1 c2s2).length = 60 := by decide
  have hp : profitCond Direction.LONG (engDev c7s1 c2s2) (engVarQ c7s1 c2s2) = true := by
    rw [hdev, hvar]
    simp only [profitCond, zGe, Z_SCORE_EXIT]
    norm_num
  refine ⟨by rw [hvar]; norm_num, ?_, ?_⟩
  · rw [hvar]
    rw [Real.sqrt_lt' (by norm_num : (0:ℝ) < 1/1000000)]
    push_cast
    norm_num
  · rw [generatePairSignal]
    rw [if_neg (by rw [hlen]; simp [ROLLING_WINDOW]), if_neg (by rw [hvar]; norm_num)]
    simp only [hp, if_true, exitType]
    rfl

/-- C7 (amended): the engine skips a pair (emits no signal, cache entry
unchanged) exactly when the rolling spread's standard deviation is 0
(`std_spread == 0`); the z-score division is only reached when σ ≠ 0.
A σ strictly between 0 and 10⁻⁶ does not suppress the signal. -/
theorem c7_amended_thm (s1 s2 : List ℚ) (hl : ℚ) (pos : Option OpenPos)
    (h : engVarQ s1 s2 = 0) :
    generatePairSignal s1 s2 hl pos = (none, pos) := by
  unfold generatePairSignal
  by_cases hlen : (engRolling s1 s2).length < ROLLING_WINDOW
  · rw [if_pos hlen]
  · rw [if_neg hlen, if_pos h]

/-- Witness for `c7_amended_thm`: a constant-spread history (both legs
identical) has σ = 0 and yields no signal, with the position untouched. -/
theorem c7_amended_w :
    engVarQ wFlat wFlat = 0 ∧
    generatePairSignal wFlat wFlat 10 (some ⟨Direction.LONG, some 0⟩) =
      (none, some ⟨Direction.LONG, some 0⟩) := by
  have hv : engVarQ wFlat wFlat = 0 := by
    norm_num [engVarQ, engSpread, engHedge, engRolling, lastN, olsSlope, sampleVar, meanQ,
      sumQ, ROLLING_WINDOW, wFlat]
  exact ⟨hv, c7_amended_thm wFlat wFlat 10 (some ⟨Direction.LONG, some 0⟩) hv⟩

/-! ## Half-life of mean reversion (`_calculate_half_life`, stat_arb.py
lines 41-57) -/

/-- Lagged spread `spread.shift(1)` after `dropna`: all but the last bar. -/
def hlLag (spread : List ℚ) : List ℚ := spread.dropLast

/-- Differences `Δs_t = s_t − s_{t−1}` after `dropna`. -/
def hlDelta (spread : List ℚ) : List ℚ :=
  List.zipWith (fun a b => a - b) spread.tail spread.dropLast

/-- The OLS slope λ of `Δs_t` on `s_{t−1}` with constant. -/
def hlSlope (spread : List ℚ) : ℚ := olsSlope (hlLag spread) (hlDelta spread)

/-- Branching core of `_calculate_half_life`: `some λ` when the code
reaches `-np.log(2)/λ`, `none` when it returns −1 (fewer than 10
observations, `|λ| < 1e-6`, or `λ ≥ 0`). -/
def halfLifeLambda (spread : List ℚ) : Option ℚ :=
  if (hlDelta spread).length < 10 then none
  else if |hlSlope spread| < 1/1000000 then none
  else if 0 ≤ hlSlope spread then none
  else some (hlSlope spread)

/-- Return value of `_calculate_half_life` as a real number. -/
noncomputable def halfLifeVal (spread : List ℚ) : ℝ :=
  (halfLifeLambda spread).elim (-1) (fun lam => -Real.log 2 / (lam : ℝ))

/-! ## Claim C8 -/

/-- A geometrically decaying 5-bar spread: exact half-life regression
slope λ = −1/2, but only 4 lagged observations. -/
def c8spread : List ℚ := [16, 8, 4, 2, 1]

/-- C8 as stated is false on the code: on this 5-element spread the lagged
regression has only 4 observations, so the code returns −1 even though
its OLS slope is λ = −1/2 (so λ < 0 and |λ| ≥ 10⁻⁶), where the claim
prescribes `−ln 2 / λ = 2·ln 2 ≠ −1`. -/
theorem c8_counterexample :
    hlSlope c8spread = -1/2 ∧
    hlSlope c8spread < 0 ∧ 1/1000000 ≤ |hlSlope c8spread| ∧
    halfLifeVal c8spread = -1 ∧
    -Real.log 2 / ((hlSlope c8spread : ℚ) : ℝ) ≠ -1 := by
  have hs : hlSlope c8spread = -1/2 := by
    norm_num [hlSlope, hlLag, hlDelta, olsSlope, meanQ, sumQ, c8spread]
  refine ⟨hs, by rw [hs]; norm_num, ?_, ?_, ?_⟩
  · rw [hs, abs_of_neg (by norm_num : (-1/2 : ℚ) < 0)]
    norm_num
  · have he : halfLifeLambda c8spread = none := by
      rw [halfLifeLambda, if_pos (by decide)]
    rw [halfLifeVal, he]
    rfl
  · rw [hs]
    intro hcon
    have hcast : (((-1/2 : ℚ)) : ℝ) = -(1/2 : ℝ) := by push_cast; norm_num
    rw [hcast] at hcon
    have h2 : -Real.log 2 / (-(1/2 : ℝ)) = 2 * Real.log 2 := by ring
    rw [h2] at hcon
    have hlog : 0 < Real.log 2 := Real.log_pos (by norm_num)
    linarith

/-- C8 (amended): `_calculate_half_life` returns `−ln 2 / λ` when the
lagged regression has at least 10 observations, λ < 0 and |λ| ≥ 10⁻⁶;
it returns −1 in every other case (fewer than 10 observations, λ ≥ 0, or
|λ| < 10⁻⁶). -/
theorem c8_amended_thm (spread : List ℚ) :
    halfLifeVal spread =
      if 10 ≤ (hlDelta spread).length ∧ hlSlope spread < 0 ∧
          1/1000000 ≤ |hlSlope spread| then
        -Real.log 2 / ((hlSlope spread : ℚ) : ℝ)
      else -1 := by
  by_cases h1 : (hlDelta spread).length < 10
  · have he : halfLifeLambda spread = none := by rw [halfLifeLambda, if_pos h1]
    rw [halfLifeVal, he, if_neg (fun hcon => absurd hcon.1 (by omega))]
    rfl
  · by_cases h2 : |hlSlope spread| < 1/1000000
    · have he : halfLifeLambda spread = none := by
        rw [halfLifeLambda, if_neg h1, if_pos h2]
      rw [halfLifeVal, he, if_neg (fun hcon => absurd hcon.2.2 (not_le.mpr h2))]
      rfl
    · by_cases h3 : 0 ≤ hlSlope spread
      · have he : halfLifeLambda spread = none := by
          rw [halfLifeLambda, if_neg h1, if_neg h2, if_pos h3]
        rw [halfLifeVal, he, if_neg (fun hcon => absurd hcon.2.1 (not_lt.mpr h3))]
        rfl
      · have he : halfLifeLambda spread = some (hlSlope spread) := by
          rw [halfLifeLambda, if_neg h1, if_neg h2, if_neg h3]
        rw [halfLifeVal, he,
          if_pos ⟨by omega, lt_of_not_ge h3, not_lt.mp h2⟩]
        rfl

/-! ## Pair finder (`find_cointegrated_pairs`, stat_arb.py lines 60-102)

The ADF test (`statsmodels.adfuller`, automatic lag selection) is not
reproducible in exact arithmetic, so it enters as an oracle
`adf : List ℚ → ℚ` returning the p-value.  The per-candidate body after
the correlation screen is embedded with the cointegration stage (lines
90-96) split into its own function so that the claim "rejected before
the cointegration test" is expressible as independence from that stage. -/

/-- Residual spread of the cointegration regression (lines 90-91):
`aligned_s1 − model.predict(const + aligned_s2)`. -/
def cointSpread (temp : List (ℚ × ℚ)) : List ℚ :=
  temp.map (fun r => r.1 - (olsIntercept (temp.map Prod.snd) (temp.map Prod.fst) +
    olsSlope (temp.map Prod.snd) (temp.map Prod.fst) * r.2))

open Classical in
/-- Cointegration stage (lines 90-96): spread ADF gate, then the
half-life gate `MIN_HALF_LIFE ≤ h ≤ MAX_HALF_LIFE`; returns the admitted
half-life. -/
noncomputable def cointStage (adf : List ℚ → ℚ) (temp : List (ℚ × ℚ)) : Option ℝ :=
  if adf (cointSpread temp) < ADF_P_VALUE_THRESHOLD then
    if ((MIN_HALF_LIFE : ℚ) : ℝ) ≤ halfLifeVal (cointSpread temp) ∧
        halfLifeVal (cointSpread temp) ≤ ((MAX_HALF_LIFE : ℚ) : ℝ) then
      some (halfLifeVal (cointSpread temp))
    else none
  else none

/-- Per-candidate body of `find_cointegrated_pairs` (lines 84-96) for a
candidate that passed the correlation screen, on its inner-joined
aligned log-price rows `temp`: the alignment-length check, then the
per-leg stationarity precheck (line 89), then the stage `rest`
(instantiated with `cointStage adf` in the code). -/
def processPair (adf : List ℚ → ℚ) (rest : List (ℚ × ℚ) → Option ℝ)
    (numCandles : ℕ) (temp : List (ℚ × ℚ)) : Option ℝ :=
  if (temp.length : ℚ) < (numCandles : ℚ) * (8/10) then none
  else if adf (temp.map Prod.fst) < ADF_P_VALUE_THRESHOLD ∨
      adf (temp.map Prod.snd) < ADF_P_VALUE_THRESHOLD then none
  else rest temp

/-! ## Claim C3 -/

/-- C3 (confirmed): past the correlation screen and the alignment-length
check, the candidate reaches the cointegration stage if and only if both
legs' ADF p-values are ≥ `ADF_P_VALUE_THRESHOLD`: when both are, the
result is exactly the cointegration stage's result; when either is
below, the result is `none` regardless of the cointegration stage, which
is never consulted. -/
theorem c3_thm (adf : List ℚ → ℚ) (numCandles : ℕ) (temp : List (ℚ × ℚ))
    (hlen : ¬ ((temp.length : ℚ) < (numCandles : ℚ) * (8/10))) :
    ((ADF_P_VALUE_THRESHOLD ≤ adf (temp.map Prod.fst) ∧
        ADF_P_VALUE_THRESHOLD ≤ adf (temp.map Prod.snd)) →
      ∀ rest : List (ℚ × ℚ) → Option ℝ,
        processPair adf rest numCandles temp = rest temp) ∧
    ((adf (temp.map Prod.fst) < ADF_P_VALUE_THRESHOLD ∨
        adf (temp.map Prod.snd) < ADF_P_VALUE_THRESHOLD) →
      ∀ rest rest2 : List (ℚ × ℚ) → Option ℝ,
        processPair adf rest numCandles temp = none ∧
        processPair adf rest numCandles temp = processPair adf rest2 numCandles temp) := by
  constructor
  · intro hboth rest
    unfold processPair
    rw [if_neg hlen, if_neg (by push_neg; exact ⟨hboth.1, hboth.2⟩)]
  · intro heither rest rest2
    unfold processPair
    rw [if_neg hlen, if_pos heither]
    exact ⟨rfl, by rw [if_neg hlen, if_pos heither]⟩

/-- Witness for `c3_thm`: a concrete ADF oracle (the series sum) on a
one-row alignment with `numCandles = 1`; both p-values are ≥ the
threshold, so the candidate reaches the concrete cointegration stage. -/
theorem c3_w :
    ¬ (((([((1 : ℚ), (2 : ℚ))] : List (ℚ × ℚ)).length : ℚ)) < ((1 : ℕ) : ℚ) * (8/10)) ∧
    ADF_P_VALUE_THRESHOLD ≤ sumQ ([((1 : ℚ), (2 : ℚ))].map Prod.fst) ∧
    ADF_P_VALUE_THRESHOLD ≤ sumQ ([((1 : ℚ), (2 : ℚ))].map Prod.snd) ∧
    processPair sumQ (cointStage sumQ) 1 [((1 : ℚ), (2 : ℚ))] =
      cointStage sumQ [((1 : ℚ), (2 : ℚ))] := by
  have hlen : ¬ (((([((1 : ℚ), (2 : ℚ))] : List (ℚ × ℚ)).length : ℚ)) <
      ((1 : ℕ) : ℚ) * (8/10)) := by push_cast; norm_num
  have h1 : ADF_P_VALUE_THRESHOLD ≤ sumQ ([((1 : ℚ), (2 : ℚ))].map Prod.fst) := by
    norm_num [sumQ, ADF_P_VALUE_THRESHOLD]
  have h2 : ADF_P_VALUE_THRESHOLD ≤ sumQ ([((1 : ℚ), (2 : ℚ))].map Prod.snd) := by
    norm_num [sumQ, ADF_P_VALUE_THRESHOLD]
  exact ⟨hlen, h1, h2,
    (c3_thm sumQ 1 [((1 : ℚ), (2 : ℚ))] hlen).1 ⟨h1, h2⟩ (cointStage sumQ)⟩

/-! ## Backtest driver (`backtester.py`)

Timestamps are embedded as rationals measured in days, so that
`(exit_timestamp - entry_timestamp).days` is the floor of their
difference.  The engine the driver calls
(`generate_pair_signals(pair_data_slice, pair_info, open_pos_info)`,
lines 146/149) is a parameter of the loop body: the claims about the
driver concern its control flow, not the engine internals. -/

abbrev PairId := String × String

/-- An admitted pair as stored in `strategy_cache["cointegrated_pairs"]`. -/
structure BtPairInfo where
  pair : PairId
  halfLife : ℚ
deriving DecidableEq, Repr

/-- The `open_pos_info` dictionary handed to the signal engine
(backtester.py lines 145/148). -/
structure BtPosInfo where
  direction : Direction
  barsHeld : ℤ
deriving DecidableEq, Repr

/-- The signal consumed by `_open_trade` / `_close_trade`: its
`hedge_ratio` is the pair `(alpha, beta)` (unpacked at line 174). -/
structure BtSignal where
  pair : PairId
  sigType : SignalType
  reason : Reason
  zDev : ℚ
  zVar : ℚ
  alpha : ℚ
  beta : ℚ
  halfLife : ℚ
deriving DecidableEq, Repr

/-- A trade dictionary (lines 184, 191-205); the settlement fields are
filled in by `_close_trade`. -/
structure BtTrade where
  serial : ℕ
  pair : PairId
  entryTs : ℚ
  entryIdx : ℕ
  zEntryDev : ℚ
  zEntryVar : ℚ
  halfLife : ℚ
  alpha : ℚ
  beta : ℚ
  direction : Direction
  s1entry : ℚ
  s2entry : ℚ
  qty1 : ℤ
  qty2 : ℤ
  exitTs : ℚ := 0
  exitReason : Reason := Reason.positionOpen
  zExitDev : ℚ := 0
  zExitVar : ℚ := 0
  grossPnl : ℚ := 0
  transactionCosts : ℚ := 0
  borrowCosts : ℚ := 0
  netPnl : ℚ := 0
  daysHeld : ℤ := 0
deriving DecidableEq, Repr

/-- A portfolio (lines 113-114): the theoretical portfolio has no
`capital` key, embedded as `none`. -/
structure Portfolio where
  openTrades : List BtTrade
  closedTrades : List BtTrade
  capital : Option ℚ
  tradeId : ℕ
  signalsSkipped : ℕ
deriving DecidableEq, Repr

/-! ### Backtester configuration constants (backtester.py lines 61-67). -/

def INITIAL_CAPITAL : ℚ := 100000000
def MAX_CONCURRENT_PAIRS : ℕ := 4
def TRADE_NOTIONAL_PER_PAIR : ℚ := 25000000
def FIXED_THEORETICAL_NOTIONAL : ℚ := 10000000
def TRANSACTION_COST_BPS : ℚ := 0
def ANNUAL_BORROW_COST_PERCENT : ℚ := 0

/-- Initial state of `realistic_portfolio` (line 113). -/
def initRealistic : Portfolio := ⟨[], [], some INITIAL_CAPITAL, 1, 0⟩

/-- Initial state of `theoretical_portfolio` (line 114). -/
def initTheoretical : Portfolio := ⟨[], [], none, 1, 0⟩

/-- Lookup `portfolio['open_trades'].get(pair)`. -/
def lookupTrade (pf : Portfolio) (p : PairId) : Option BtTrade :=
  pf.openTrades.find? (fun t => t.pair == p)

/-- Test `'LONG' in signal.signal_type`. -/
def hasLong : SignalType → Bool
  | SignalType.ENTER_LONG => true
  | SignalType.EXIT_LONG => true
  | SignalType.HOLD_LONG => true
  | _ => false

/-- Test `"EXIT" in signal.signal_type`. -/
def isExitSignal : SignalType → Bool
  | SignalType.EXIT_LONG => true
  | SignalType.EXIT_SHORT => true
  | _ => false

/-- Test `"ENTER" in signal.signal_type`. -/
def isEnterSignal : SignalType → Bool
  | SignalType.ENTER_LONG => true
  | SignalType.ENTER_SHORT => true
  | _ => false

/-- Computes `notional_s1 = notional / (1 + abs(beta))` (line 177). -/
def notionalS1 (k beta : ℚ) : ℚ := k / (1 + |beta|)

/-- Computes `notional_s2 = (notional * abs(beta)) / (1 + abs(beta))` (line 178). -/
def notionalS2 (k beta : ℚ) : ℚ := k * |beta| / (1 + |beta|)

/-- Embeds `_open_trade` (lines 170-187). -/
def openTrade (sig : BtSignal) (s1p s2p : ℚ) (candleIdx : ℕ) (ts : ℚ)
    (pf : Portfolio) (isRealistic : Bool) : Portfolio :=
  let dir := if hasLong sig.sigType then Direction.LONG else Direction.SHORT
  let notional := if isRealistic then TRADE_NOTIONAL_PER_PAIR else FIXED_THEORETICAL_NOTIONAL
  let q1 : ℤ := if 0 < s1p then pyInt (notionalS1 notional sig.beta / s1p) else 0
  let q2 : ℤ := if 0 < s2p then pyInt (notionalS2 notional sig.beta / s2p) else 0
  let newTrade : BtTrade :=
    { serial := pf.tradeId, pair := sig.pair, entryTs := ts, entryIdx := candleIdx,
      zEntryDev := sig.zDev, zEntryVar := sig.zVar, halfLife := sig.halfLife,
      alpha := sig.alpha, beta := sig.beta, direction := dir, s1entry := s1p,
      s2entry := s2p, qty1 := q1, qty2 := q2 }
  if q1 = 0 ∨ q2 = 0 then pf
  else
    { pf with
      openTrades := pf.openTrades ++ [newTrade],
      tradeId := pf.tradeId + 1 }

/-- The settlement computation of `_close_trade` (lines 191-205), with the
cost configuration (`TRANSACTION_COST_BPS`, `ANNUAL_BORROW_COST_PERCENT`)
as parameters `bps`/`rate`. -/
def settleTrade (bps rate : ℚ) (t : BtTrade) (s1p s2p ts : ℚ) (sig : BtSignal) : BtTrade :=
  let s1posLong := t.direction = Direction.LONG
  let pnl1 := if s1posLong then (s1p - t.s1entry) * (t.qty1 : ℚ)
    else (t.s1entry - s1p) * (t.qty1 : ℚ)
  let pnl2 := if s1posLong then (t.s2entry - s2p) * (t.qty2 : ℚ)
    else (s2p - t.s2entry) * (t.qty2 : ℚ)
  let n1e := t.s1entry * (t.qty1 : ℚ)
  let n2e := t.s2entry * (t.qty2 : ℚ)
  let turnover := n1e + s1p * (t.qty1 : ℚ) + n2e + s2p * (t.qty2 : ℚ)
  let tc := turnover * (bps / 10000)
  let dh : ℤ := max 1 ⌊ts - t.entryTs⌋
  let shortNotional := if s1posLong then n2e else n1e
  let bc := shortNotional * (rate / 100) / 365 * (dh : ℚ)
  { t with
    exitTs := ts, exitReason := sig.reason, zExitDev := sig.zDev,
    zExitVar := sig.zVar, grossPnl := pnl1 + pnl2, transactionCosts := tc,
    borrowCosts := bc, netPnl := pnl1 + pnl2 - tc - bc, daysHeld := dh }

/-- Embeds `_close_trade` (lines 189-209): settle, credit `net_pnl` to `capital`
when the portfolio has one, append to `closed_trades`, delete the open
trade. -/
def closeTrade (bps rate : ℚ) (t : BtTrade) (s1p s2p ts : ℚ) (sig : BtSignal)
    (pf : Portfolio) : Portfolio :=
  let t2 := settleTrade bps rate t s1p s2p ts sig
  { pf with
    openTrades := pf.openTrades.filter (fun u => !(u.pair == t.pair)),
    closedTrades := pf.closedTrades ++ [t2],
    capital := pf.capital.map (· + t2.netPnl) }

/-- The engine signature the driver calls (3-argument
`generate_pair_signals`): close-price slices of the two legs, the pair
info and the optional open-position info. -/
abbrev BtEngine := List ℚ → List ℚ → BtPairInfo → Option BtPosInfo → Option BtSignal

/-- Computes `pairs_in_play` (lines 127-129): open-position pairs of both
portfolios together with the admitted pairs (a set union in the code;
membership is what matters). -/
def pairsInPlay (real theo : Portfolio) (admitted : List BtPairInfo) : List PairId :=
  real.openTrades.map (fun t => t.pair) ++ theo.openTrades.map (fun t => t.pair) ++
    admitted.map (fun q => q.pair)

/-- Per-pair body of the backtest loop (lines 131-166): look up
`pair_info` in the admitted set (`continue` when absent), slice the
histories, query the engine once per portfolio with that portfolio's
open-position state, close on EXIT signals, then open on ENTER signals
subject to the realistic portfolio's capacity cap. -/
def processBtPair (engine : BtEngine) (admitted : List BtPairInfo)
    (hist1 hist2 : List ℚ) (exec1 exec2 : ℚ) (i : ℕ) (nextTs : ℚ)
    (real theo : Portfolio) (p : PairId) : Portfolio × Portfolio :=
  match admitted.find? (fun q => q.pair == p) with
  | none => (real, theo)
  | some info =>
    if hist1.length < ROLLING_WINDOW + 5 then (real, theo)
    else
      let slice1 := lastN (ROLLING_WINDOW + 5) hist1
      let slice2 := lastN (ROLLING_WINDOW + 5) hist2
      let realPos := lookupTrade real p
      let theoPos := lookupTrade theo p
      let sigReal := engine slice1 slice2 info
        (realPos.map (fun t => ⟨t.direction, (i : ℤ) - (t.entryIdx : ℤ)⟩))
      let sigTheo := engine slice1 slice2 info
        (theoPos.map (fun t => ⟨t.direction, (i : ℤ) - (t.entryIdx : ℤ)⟩))
      let real1 := match sigReal, realPos with
        | some s, some t =>
          if isExitSignal s.sigType then
            closeTrade TRANSACTION_COST_BPS ANNUAL_BORROW_COST_PERCENT t exec1 exec2
              nextTs s real
          else real
        | _, _ => real
      let theo1 := match sigTheo, theoPos with
        | some s, some t =>
          if isExitSignal s.sigType then
            closeTrade TRANSACTION_COST_BPS ANNUAL_BORROW_COST_PERCENT t exec1 exec2
              nextTs s theo
          else theo
        | _, _ => theo
      let real2 := match sigReal, realPos with
        | some s, none =>
          if isEnterSignal s.sigType then
            if real1.openTrades.length < MAX_CONCURRENT_PAIRS then
              openTrade s exec1 exec2 i nextTs real1 true
            else { real1 with signalsSkipped := real1.signalsSkipped + 1 }
          else real1
        | _, _ => real1
      let theo2 := match sigTheo, theoPos with
        | some s, none =>
          if isEnterSignal s.sigType then openTrade s exec1 exec2 i nextTs theo1 false
          else theo1
        | _, _ => theo1
      (real2, theo2)

/-! ## Claim C4 -/

/-- A pair held open in the realistic portfolio but absent from the
currently admitted set. -/
def cex4pair : PairId := ("AAA", "BBB")

def cex4trade : BtTrade :=
  { serial := 1, pair := cex4pair, entryTs := 0, entryIdx := 0, zEntryDev := 3,
    zEntryVar := 1, halfLife := 10, alpha := 0, beta := 1,
    direction := Direction.LONG, s1entry := 100, s2entry := 100, qty1 := 10, qty2 := 10 }

def cex4real : Portfolio :=
  { openTrades := [cex4trade], closedTrades := [], capital := some INITIAL_CAPITAL,
    tradeId := 2, signalsSkipped := 0 }

/-- An engine oracle that answers every open-position query with an exit
signal (so any exit evaluation would close the position). -/
def alwaysExitEngine : BtEngine := fun _ _ info pos =>
  match pos with
  | some pi =>
    some
      { pair := info.pair, sigType := exitType pi.direction,
        reason := Reason.profitTarget, zDev := 0, zVar := 1, alpha := 0, beta := 1,
        halfLife := info.halfLife }
  | none => none

/-- C4 as stated is false on the code: the pair with an open realistic
position is in `pairs_in_play`, but with the pair absent from the
admitted set the loop body `continue`s (backtester.py line 133) — even
under an engine that would emit an exit for it, both portfolios are
returned unchanged and the position stays open, so the pair is never
evaluated for an exit. -/
theorem c4_counterexample :
    cex4pair ∈ pairsInPlay cex4real initTheoretical [] ∧
    lookupTrade cex4real cex4pair = some cex4trade ∧
    (alwaysExitEngine (lastN (ROLLING_WINDOW + 5) wFlat) (lastN (ROLLING_WINDOW + 5) wFlat)
        ⟨cex4pair, 10⟩ (some ⟨Direction.LONG, 60⟩)).isSome = true ∧
    isExitSignal (exitType Direction.LONG) = true ∧
    processBtPair alwaysExitEngine [] wFlat wFlat 100 100 60 1 cex4real initTheoretical
      cex4pair = (cex4real, initTheoretical) := by
  refine ⟨?_, ?_, rfl, rfl, rfl⟩
  · simp [pairsInPlay, cex4real, cex4trade, initTheoretical]
  · simp [lookupTrade, cex4real, cex4trade]

/-- C4 (amended): every pair with an open position in either portfolio is
included in `pairs_in_play`, but it is evaluated by the signal engine
only if it is also present in the currently admitted pair set; when it
is absent the loop body skips it without consulting the engine, leaving
both portfolios unchanged. -/
theorem c4_amended_thm (engine : BtEngine) (real theo : Portfolio)
    (admitted : List BtPairInfo) (t : BtTrade) (hist1 hist2 : List ℚ)
    (exec1 exec2 : ℚ) (i : ℕ) (nextTs : ℚ)
    (ht : t ∈ real.openTrades)
    (hfind : admitted.find? (fun q => q.pair == t.pair) = none) :
    t.pair ∈ pairsInPlay real theo admitted ∧
    processBtPair engine admitted hist1 hist2 exec1 exec2 i nextTs real theo t.pair =
      (real, theo) := by
  constructor
  · unfold pairsInPlay
    exact List.mem_append_left _
      (List.mem_append_left _ (List.mem_map_of_mem (fun u => u.pair) ht))
  · unfold processBtPair
    rw [hfind]

/-- Witness for `c4_amended_thm` at the concrete orphaned-pair state. -/
theorem c4_amended_w :
    cex4trade ∈ cex4real.openTrades ∧
    ([] : List BtPairInfo).find? (fun q => q.pair == cex4trade.pair) = none ∧
    (cex4trade.pair ∈ pairsInPlay cex4real initTheoretical [] ∧
     processBtPair alwaysExitEngine [] wFlat wFlat 100 100 60 1 cex4real initTheoretical
       cex4trade.pair = (cex4real, initTheoretical)) := by
  have ht : cex4trade ∈ cex4real.openTrades := by simp [cex4real]
  have hf : ([] : List BtPairInfo).find? (fun q => q.pair == cex4trade.pair) = none := rfl
  exact ⟨ht, hf, c4_amended_thm alwaysExitEngine cex4real initTheoretical [] cex4trade
    wFlat wFlat 100 100 60 1 ht hf⟩

/-! ## Claim C5 -/

theorem sumQ_cons (a : ℚ) (l : List ℚ) : sumQ (a :: l) = a + sumQ l := rfl

theorem sumQ_append (l1 l2 : List ℚ) : sumQ (l1 ++ l2) = sumQ l1 + sumQ l2 := by
  induction l1 with
  | nil => simp [sumQ]
  | cons a t ih =>
    rw [List.cons_append, sumQ_cons, sumQ_cons, ih]
    ring

/-- One portfolio-mutating step of the backtest loop: an `_open_trade`
call or an `_close_trade` call on the pair's current open trade (the
driver only calls `_close_trade` when the position exists). -/
inductive BtEvent where
  | openEv : BtSignal → ℚ → ℚ → ℕ → ℚ → Bool → BtEvent
  | closeEv : PairId → ℚ → ℚ → ℚ → BtSignal → BtEvent

def applyEvent (pf : Portfolio) : BtEvent → Portfolio
  | BtEvent.openEv sig s1p s2p idx ts isR => openTrade sig s1p s2p idx ts pf isR
  | BtEvent.closeEv p s1p s2p ts sig =>
    match lookupTrade pf p with
    | some t => closeTrade TRANSACTION_COST_BPS ANNUAL_BORROW_COST_PERCENT t s1p s2p ts
        sig pf
    | none => pf

def runEvents (pf : Portfolio) (evs : List BtEvent) : Portfolio :=
  evs.foldl applyEvent pf

theorem capitalStep (pf : Portfolio) (e : BtEvent)
    (h : pf.capital =
      some (INITIAL_CAPITAL + sumQ (pf.closedTrades.map (fun t => t.netPnl)))) :
    (applyEvent pf e).capital =
      some (INITIAL_CAPITAL + sumQ ((applyEvent pf e).closedTrades.map (fun t => t.netPnl))) := by
  cases e with
  | openEv sig s1p s2p idx ts isR =>
    simp only [applyEvent, openTrade]
    repeat' split
    all_goals exact h
  | closeEv p s1p s2p ts sig =>
    simp only [applyEvent]
    cases hl : lookupTrade pf p with
    | none => exact h
    | some t =>
      simp only [closeTrade, h, Option.map_some', List.map_append, sumQ_append,
        List.map_cons, List.map_nil, sumQ_cons]
      have hz : sumQ [] = 0 := rfl
      rw [hz]
      congr 1
      ring

/-- C5 (confirmed): starting from the realistic portfolio's initial state,
after any sequence of trade openings and closings the capital equals
`INITIAL_CAPITAL` plus the sum of `net_pnl` over the closed trades; and
opening a trade never changes capital (closing is the only operation
that does). -/
theorem c5_thm :
    (∀ evs : List BtEvent,
      (runEvents initRealistic evs).capital =
        some (INITIAL_CAPITAL +
          sumQ ((runEvents initRealistic evs).closedTrades.map (fun t => t.netPnl)))) ∧
    (∀ (sig : BtSignal) (s1p s2p : ℚ) (idx : ℕ) (ts : ℚ) (pf : Portfolio) (isR : Bool),
      (openTrade sig s1p s2p idx ts pf isR).capital = pf.capital) := by
  constructor
  · have key : ∀ (evs : List BtEvent) (pf : Portfolio),
        pf.capital =
          some (INITIAL_CAPITAL + sumQ (pf.closedTrades.map (fun t => t.netPnl))) →
        (runEvents pf evs).capital =
          some (INITIAL_CAPITAL +
            sumQ ((runEvents pf evs).closedTrades.map (fun t => t.netPnl))) := by
      intro evs
      induction evs with
      | nil => intro pf h; exact h
      | cons e rest ih =>
        intro pf h
        have hstep := capitalStep pf e h
        simp only [runEvents, List.foldl_cons] at *
        exact ih (applyEvent pf e) hstep
    intro evs
    refine key evs initRealistic ?_
    simp [initRealistic, sumQ]
  · intro sig s1p s2p idx ts pf isR
    simp only [openTrade]
    repeat' split
    all_goals rfl

/-! ## Claim C6 -/

/-- An entry signal with hedge ratio β = 3. -/
def cex6sig : BtSignal :=
  { pair := ("AAA", "BBB"), sigType := SignalType.ENTER_LONG,
    reason := Reason.zBelowEntry, zDev := -3, zVar := 1, alpha := 0, beta := 3,
    halfLife := 10 }

/-- C6 as stated is false on the code: with β = 3 and both prices positive
the trade is opened (both leg quantities are nonzero), yet
`|β|·notional_s1 + notional_s2 = 1.5·K` exceeds
`TRADE_NOTIONAL_PER_PAIR · (1 + ε)` already at ε = 1/100 (indeed for
every ε < 1/2). -/
theorem c6_counterexample :
    |cex6sig.beta| * notionalS1 TRADE_NOTIONAL_PER_PAIR cex6sig.beta +
        notionalS2 TRADE_NOTIONAL_PER_PAIR cex6sig.beta >
      TRADE_NOTIONAL_PER_PAIR * (1 + 1/100) ∧
    (openTrade cex6sig 100 100 0 0 initRealistic true).openTrades.length = 1 := by
  have habs : |(3 : ℚ)| = 3 := abs_of_pos (by norm_num)
  constructor
  · simp only [cex6sig]
    rw [notionalS1, notionalS2, habs, TRADE_NOTIONAL_PER_PAIR]
    norm_num
  · simp only [openTrade, cex6sig, notionalS1, notionalS2, TRADE_NOTIONAL_PER_PAIR,
      initRealistic, habs, pyInt]
    norm_num

/-- C6 (amended): for the notionals `_open_trade` computes,
`notional_s1 + notional_s2` equals the fixed notional K exactly — the
deployed entry notional, not the β-weighted expression, is what the
K·(1+ε) bound holds for (for every ε ≥ 0); `|β|·notional_s1 +
notional_s2 = 2K|β|/(1+|β|)` exceeds K whenever |β| > 1. -/
theorem c6_amended_thm (beta eps : ℚ) (heps : 0 ≤ eps) :
    notionalS1 TRADE_NOTIONAL_PER_PAIR beta + notionalS2 TRADE_NOTIONAL_PER_PAIR beta =
      TRADE_NOTIONAL_PER_PAIR ∧
    notionalS1 TRADE_NOTIONAL_PER_PAIR beta + notionalS2 TRADE_NOTIONAL_PER_PAIR beta ≤
      TRADE_NOTIONAL_PER_PAIR * (1 + eps) := by
  have hb : (0 : ℚ) < 1 + |beta| := by positivity
  have hsum : notionalS1 TRADE_NOTIONAL_PER_PAIR beta +
      notionalS2 TRADE_NOTIONAL_PER_PAIR beta = TRADE_NOTIONAL_PER_PAIR := by
    unfold notionalS1 notionalS2
    field_simp
    ring
  refine ⟨hsum, ?_⟩
  rw [hsum]
  nlinarith [show (0 : ℚ) < TRADE_NOTIONAL_PER_PAIR by norm_num [TRADE_NOTIONAL_PER_PAIR]]

/-- Witness for `c6_amended_thm` at β = 3, ε = 1/100. -/
theorem c6_amended_w :
    (0 : ℚ) ≤ 1/100 ∧
    (notionalS1 TRADE_NOTIONAL_PER_PAIR 3 + notionalS2 TRADE_NOTIONAL_PER_PAIR 3 =
      TRADE_NOTIONAL_PER_PAIR ∧
     notionalS1 TRADE_NOTIONAL_PER_PAIR 3 + notionalS2 TRADE_NOTIONAL_PER_PAIR 3 ≤
      TRADE_NOTIONAL_PER_PAIR * (1 + 1/100)) :=
  ⟨by norm_num, c6_amended_thm 3 (1/100) (by norm_num)⟩

/-! ## Claim C10 -/

/-- C10 (confirmed): the recorded `days_held` of any settled trade is at
least 1 (for any exit timestamp `ts2`); and when entry and exit fall
within the same day (`entry ≤ exit < entry + 1`, which covers a
same-calendar-day round trip), `days_held` is exactly 1 and the borrow
cost charged is one full day on the short leg's entry notional. -/
theorem c10_thm (bps rate : ℚ) (t : BtTrade) (s1p s2p ts ts2 : ℚ) (sig : BtSignal)
    (h1 : t.entryTs ≤ ts) (h2 : ts < t.entryTs + 1) :
    1 ≤ (settleTrade bps rate t s1p s2p ts2 sig).daysHeld ∧
    (settleTrade bps rate t s1p s2p ts sig).daysHeld = 1 ∧
    (settleTrade bps rate t s1p s2p ts sig).borrowCosts =
      (if t.direction = Direction.LONG then t.s2entry * (t.qty2 : ℚ)
       else t.s1entry * (t.qty1 : ℚ)) * (rate / 100) / 365 := by
  have hfl : ⌊ts - t.entryTs⌋ = 0 := by
    rw [Int.floor_eq_zero_iff, Set.mem_Ico]
    exact ⟨by linarith, by linarith⟩
  refine ⟨?_, ?_, ?_⟩
  · simp only [settleTrade]
    exact le_max_left 1 _
  · simp only [settleTrade, hfl]
    rfl
  · simp only [settleTrade, hfl]
    split
    · norm_num
    · norm_num

/-- Witness for `c10_thm`: a trade entered at t = 0 and exited half a day
later is held for one recorded day; an exit stamped even before entry
still records at least one day. -/
theorem c10_w :
    cex4trade.entryTs ≤ (1/2 : ℚ) ∧ (1/2 : ℚ) < cex4trade.entryTs + 1 ∧
    (1 ≤ (settleTrade 0 730 cex4trade 90 110 (-5) cex6sig).daysHeld ∧
     (settleTrade 0 730 cex4trade 90 110 (1/2) cex6sig).daysHeld = 1 ∧
     (settleTrade 0 730 cex4trade 90 110 (1/2) cex6sig).borrowCosts =
       (if cex4trade.direction = Direction.LONG then cex4trade.s2entry * (cex4trade.qty2 : ℚ)
        else cex4trade.s1entry * (cex4trade.qty1 : ℚ)) * (730 / 100) / 365) := by
  have h1 : cex4trade.entryTs ≤ (1/2 : ℚ) := by norm_num [cex4trade]
  have h2 : (1/2 : ℚ) < cex4trade.entryTs + 1 := by norm_num [cex4trade]
  exact ⟨h1, h2, c10_thm 0 730 cex4trade 90 110 (1/2) (-5) cex6sig h1 h2⟩

/-! ## Claim C9

The full `generate_pair_signals(all_data_dict, pairs_to_check)` loop
(stat_arb.py lines 104-188): it iterates the admitted pairs, skips a
pair when either symbol is missing from the data dictionary, and both
reads and writes the module-level `open_positions` cache, here passed as
an explicit state function. -/

/-- Prepend the emitted signal, if any, to the signal list
(`signals.append(...)`). -/
def consumeSignal (p : PairId) (r : Option PairSignal) (tail : List (PairId × PairSignal)) :
    List (PairId × PairSignal) :=
  match r with
  | some sig => (p, sig) :: tail
  | none => tail

/-- The multi-pair signal engine with the `open_positions` cache as
explicit state. -/
def generatePairSignals (data : String → Option (List ℚ)) :
    List (PairId × ℚ) → (PairId → Option OpenPos) →
    List (PairId × PairSignal) × (PairId → Option OpenPos)
  | [], positions => ([], positions)
  | ph :: rest, positions =>
    match data ph.1.1, data ph.1.2 with
    | some s1, some s2 =>
      let r := generatePairSignal s1 s2 ph.2 (positions ph.1)
      let tail := generatePairSignals data rest
        (fun q => if q = ph.1 then r.2 else positions q)
      (consumeSignal ph.1 r.1 tail.1, tail.2)
    | _, _ => generatePairSignals data rest positions

/-- Unfolding equation of `generatePairSignals` on a non-empty pair list. -/
theorem gps_cons (data : String → Option (List ℚ)) (ph : PairId × ℚ)
    (rest : List (PairId × ℚ)) (positions : PairId → Option OpenPos) :
    generatePairSignals data (ph :: rest) positions =
      match data ph.1.1, data ph.1.2 with
      | some s1, some s2 =>
        (consumeSignal ph.1 (generatePairSignal s1 s2 ph.2 (positions ph.1)).1
          (generatePairSignals data rest
            (fun q => if q = ph.1 then (generatePairSignal s1 s2 ph.2 (positions ph.1)).2
             else positions q)).1,
         (generatePairSignals data rest
            (fun q => if q = ph.1 then (generatePairSignal s1 s2 ph.2 (positions ph.1)).2
             else positions q)).2)
      | _, _ => generatePairSignals data rest positions := rfl

/-- C9 (confirmed): the engine is deterministic and depends on no state
beyond its inputs — two invocations with the same pair data, the same
pair infos, and extensionally equal open-position state emit equal
signal lists (equal signal type, reason, z-score, hedge ratio and
half-life throughout) and leave extensionally equal position state. -/
theorem c9_thm (data : String → Option (List ℚ)) (pairs : List (PairId × ℚ))
    (m1 m2 : PairId → Option OpenPos) (h : ∀ p, m1 p = m2 p) :
    (generatePairSignals data pairs m1).1 = (generatePairSignals data pairs m2).1 ∧
    (∀ q, (generatePairSignals data pairs m1).2 q =
      (generatePairSignals data pairs m2).2 q) := by
  induction pairs generalizing m1 m2 with
  | nil => exact ⟨rfl, h⟩
  | cons ph rest ih =>
    rw [gps_cons, gps_cons]
    cases hd1 : data ph.1.1 with
    | none =>
      cases hd2 : data ph.1.2
      · exact ih m1 m2 h
      · exact ih m1 m2 h
    | some s1 =>
      cases hd2 : data ph.1.2 with
      | none => exact ih m1 m2 h
      | some s2 =>
        dsimp only
        rw [h ph.1]
        have hpt : ∀ q,
            (fun q => if q = ph.1 then (generatePairSignal s1 s2 ph.2 (m2 ph.1)).2
              else m1 q) q =
            (fun q => if q = ph.1 then (generatePairSignal s1 s2 ph.2 (m2 ph.1)).2
              else m2 q) q := by
          intro q
          by_cases hq : q = ph.1
          · simp [hq]
          · simp [hq, h q]
        obtain ⟨ht1, ht2⟩ := ih _ _ hpt
        exact ⟨by rw [ht1], ht2⟩


/-- Witness for `c9_thm`: two extensionally equal (syntactically
different) cache states yield the same signal list on a one-pair
universe over concrete data. -/
theorem c9_w :
    (∀ p : PairId, (fun _ : PairId => (none : Option OpenPos)) p =
      (fun q : PairId => if q = ("A", "B") then none else (none : Option OpenPos)) p) ∧
    (generatePairSignals
        (fun s => if s = "A" then some c2s1 else if s = "B" then some c2s2 else none)
        [(("A", "B"), 10)] (fun _ => none)).1 =
      (generatePairSignals
        (fun s => if s = "A" then some c2s1 else if s = "B" then some c2s2 else none)
        [(("A", "B"), 10)] (fun q => if q = ("A", "B") then none else none)).1 := by
  have h : ∀ p : PairId, (fun _ : PairId => (none : Option OpenPos)) p =
      (fun q : PairId => if q = ("A", "B") then none else (none : Option OpenPos)) p := by
    intro p
    simp
  exact ⟨h, (c9_thm
    (fun s => if s = "A" then some c2s1 else if s = "B" then some c2s2 else none)
    [(("A", "B"), 10)] (fun _ => none) (fun q => if q = ("A", "B") then none else none)
    h).1⟩
